import Mathlib

set_option autoImplicit false

/- Shallow embedding of the TIN-parser repository (src/main.py,
   src/parser_base.py, src/site_parsers.py).

   Modelling conventions:
   - Python dicts are association lists with insertion order preserved:
     assignment replaces the binding in place or appends a fresh one.
   - Python sets of strings are lists with membership-guarded insertion.
   - pandas NaN cells and Python None are Option.none.
   - str(x).strip() on an id is String.pyStrip.
   - File writes are counted and the CSV file content is carried in the
     state, so that flush behaviour is observable. -/

/-- Python dict lookup d.get(k): the binding for the key, if present. -/
def dictLookup {α : Type} : List (String × α) → String → Option α
  | [], _ => none
  | (k1, v) :: rest, k => if k1 = k then some v else dictLookup rest k

/-- Python membership test (k in d) for a dict. -/
def dictHasKey {α : Type} : List (String × α) → String → Bool
  | [], _ => false
  | (k1, _) :: rest, k => if k1 = k then true else dictHasKey rest k

/-- Python dict assignment d[k] = v: replace in place, else append. -/
def dictInsert {α : Type} : List (String × α) → String → α → List (String × α)
  | [], k, v => [(k, v)]
  | (k1, v1) :: rest, k, v =>
      if k1 = k then (k, v) :: rest else (k1, v1) :: dictInsert rest k v

/-- Python del d[k]: drop the binding for the key. -/
def dictErase {α : Type} : List (String × α) → String → List (String × α)
  | [], _ => []
  | (k1, v1) :: rest, k => if k1 = k then rest else (k1, v1) :: dictErase rest k

/-- Python set.add for a set of strings. -/
def setInsert (s : List String) (k : String) : List String :=
  if k ∈ s then s else s ++ [k]

/-- Whitespace removal at the front of a character list. -/
def dropLeadingWs : List Char → List Char
  | [] => []
  | c :: cs => if c.isWhitespace then dropLeadingWs cs else c :: cs

/-- Python str.strip(): drop whitespace from both ends (an executable
    model of the str(x).strip() normalisation the source applies to
    every id). -/
def String.pyStrip (s : String) : String :=
  ⟨(dropLeadingWs (dropLeadingWs s.data.reverse).reverse)⟩

/-- parser_base.CompanyData: one entity and its enrichment fields. -/
structure CompanyData where
  name : String
  inn : Option String
  chairman_name : Option String := none
  chairman_inn : Option String := none
  source : Option String := none
deriving DecidableEq, Repr

/-- CompanyData.__init__ normalises the id with str(inn).strip(). -/
def CompanyData.make (name : String) (inn : Option String) : CompanyData :=
  { name := name, inn := inn.map String.pyStrip }

/-- One row of the Excel input or of the exported CSV
    (name, id, chairman name, chairman id, source); none is a NaN cell. -/
structure InputRow where
  name : String
  inn : Option String
  chairman_name : Option String := none
  chairman_inn : Option String := none
  source : Option String := none
deriving DecidableEq, Repr

/-- parser_base.DataManager state: durable store plus the pending
    runtime delta of the current run. -/
structure DataManager where
  save_interval : Nat
  processed_inns : List String
  results : List (String × CompanyData)
  save_results_counter : Nat
  runtime_results : List (String × CompanyData)
  seconds_since_last_save : Nat
  csv_file : Option (List CompanyData)
  cache_writes : Nat
  csv_writes : Nat
deriving DecidableEq, Repr

/-- DataManager.__init__ before any cache or CSV load. -/
def DataManager.fresh (save_interval : Nat) : DataManager :=
  { save_interval := save_interval, processed_inns := [], results := [],
    save_results_counter := 0, runtime_results := [],
    seconds_since_last_save := 0, csv_file := none,
    cache_writes := 0, csv_writes := 0 }

/-- Key a CSV row is merged under in DataManager._save_to_csv:
    str(row.inn).strip() when the cell is present, skipped when the
    trimmed id is falsy. -/
def innKey (c : CompanyData) : Option String :=
  match c.inn with
  | some s => if s.pyStrip = "" then none else some s.pyStrip
  | none => none

/-- First loop of DataManager._save_to_csv: every current-run result row
    is written into merged_data keyed by id. -/
def addCurrentRows : List (String × CompanyData) → List CompanyData → List (String × CompanyData)
  | m, [] => m
  | m, r :: rs =>
      match innKey r with
      | some k => addCurrentRows (dictInsert m k r) rs
      | none => addCurrentRows m rs

/-- Second loop of DataManager._save_to_csv: a pre-existing file row is
    added only when its id is absent from merged_data. -/
def addExistingRows : List (String × CompanyData) → List CompanyData → List (String × CompanyData)
  | m, [] => m
  | m, r :: rs =>
      match innKey r with
      | some k =>
          if dictHasKey m k then addExistingRows m rs
          else addExistingRows (m ++ [(k, r)]) rs
      | none => addExistingRows m rs

/-- DataManager._save_to_csv merge of the current results with a
    pre-existing export file. -/
def csvMerge (current existing : List CompanyData) : List (String × CompanyData) :=
  addExistingRows (addCurrentRows [] current) existing

/-- DataManager._save_to_csv: skip when there are no results, write the
    results as a fresh file when none exists, otherwise merge. -/
def DataManager.save_to_csv (dm : DataManager) : DataManager :=
  if dm.results = [] then dm
  else
    let current := dm.results.map Prod.snd
    match dm.csv_file with
    | none =>
        { dm with csv_file := some current, csv_writes := dm.csv_writes + 1 }
    | some existing =>
        { dm with csv_file := some ((csvMerge current existing).map Prod.snd),
                  csv_writes := dm.csv_writes + 1 }

/-- Body of the absorb loops in DataManager.save_results and
    DataManager._save_cache: results[str(inn).strip()] = company and
    processed_inns.add(str(inn).strip()). -/
def absorbStep (dm : DataManager) (p : String × CompanyData) : DataManager :=
  { dm with results := dictInsert dm.results p.1.pyStrip p.2,
            processed_inns := setInsert dm.processed_inns p.1.pyStrip }

/-- Step 1 of DataManager.save_results: merge every runtime result into
    the durable maps. -/
def absorbList (dm : DataManager) : List (String × CompanyData) → DataManager
  | [] => dm
  | p :: rest => absorbList (absorbStep dm p) rest

/-- The same loop inside DataManager._save_cache, which guards each
    entry with a truthiness test on the id. -/
def absorbCacheList (dm : DataManager) : List (String × CompanyData) → DataManager
  | [] => dm
  | p :: rest => absorbCacheList (if p.1 = "" then dm else absorbStep dm p) rest

/-- DataManager._save_cache: re-merge the runtime delta and write the
    cache file (the .bak copy is not observable here). -/
def DataManager.save_cache (dm : DataManager) : DataManager :=
  let dm1 := absorbCacheList dm dm.runtime_results
  { dm1 with cache_writes := dm1.cache_writes + 1 }

/-- DataManager.save_results: early return when nothing is pending and
    not forced; save when forced, when the pending counter reached
    save_interval, or when more than 300 seconds passed; a CSV write
    happens only when forced; runtime_results is never cleared. -/
def DataManager.save_results (dm : DataManager) (force : Bool) : DataManager :=
  if force = false ∧ dm.save_results_counter = 0 ∧ dm.runtime_results = [] then dm
  else if force = true ∨ dm.save_interval ≤ dm.save_results_counter ∨
          300 < dm.seconds_since_last_save then
    let dm1 := absorbList dm dm.runtime_results
    let dm2 := dm1.save_cache
    let dm3 := if force then dm2.save_to_csv else dm2
    { dm3 with save_results_counter := 0, seconds_since_last_save := 0 }
  else dm

/-- DataManager.update_results: store the result in the runtime delta
    keyed by the trimmed id, bump the counter, and save (not forced)
    once the counter reaches save_interval. -/
def DataManager.update_results (dm : DataManager) (c0 : CompanyData) : DataManager :=
  let inn_str := c0.inn.map String.pyStrip
  let c : CompanyData := { c0 with inn := inn_str }
  match inn_str with
  | some s =>
      if s = "" then dm
      else
        let dm1 : DataManager :=
          { dm with runtime_results := dictInsert dm.runtime_results s c,
                    save_results_counter := dm.save_results_counter + 1 }
        if dm1.save_interval ≤ dm1.save_results_counter then dm1.save_results false
        else dm1
  | none => dm

/-- Loop body of DataManager.get_companies_to_process: skip ids already
    processed; a row with both chairman cells present is marked processed
    and skipped; otherwise the row becomes a company to process.
    A row without an id is never tracked in the string id set. -/
def gcList : List CompanyData → List String → List InputRow → List CompanyData × List String
  | cs, pr, [] => (cs, pr)
  | cs, pr, r :: rest =>
      match r.inn.map String.pyStrip with
      | some s =>
          if s ∈ pr then gcList cs pr rest
          else if r.chairman_name.isSome && r.chairman_inn.isSome then
            gcList cs (setInsert pr s) rest
          else gcList (cs ++ [CompanyData.make r.name (some s)]) pr rest
      | none =>
          if r.chairman_name.isSome && r.chairman_inn.isSome then gcList cs pr rest
          else gcList (cs ++ [CompanyData.make r.name none]) pr rest

/-- DataManager.get_companies_to_process on the input rows. -/
def DataManager.get_companies_to_process (dm : DataManager) (rows : List InputRow) :
    List CompanyData × DataManager :=
  let res := gcList [] dm.processed_inns rows
  (res.1, { dm with processed_inns := res.2 })

/-- Loop body of DataManager._load_csv_results: skip rows whose id is
    already in results; only a row with both chairman cells present is
    loaded into results and marked processed. -/
def loadCsvList : List (String × CompanyData) → List String → List InputRow →
    List (String × CompanyData) × List String
  | res, pr, [] => (res, pr)
  | res, pr, r :: rest =>
      match r.inn.map String.pyStrip with
      | some s =>
          if dictHasKey res s then loadCsvList res pr rest
          else if r.chairman_name.isSome && r.chairman_inn.isSome then
            let c : CompanyData :=
              { CompanyData.make r.name (some s) with
                  chairman_name := r.chairman_name,
                  chairman_inn := r.chairman_inn,
                  source := r.source }
            loadCsvList (dictInsert res s c) (setInsert pr s) rest
          else loadCsvList res pr rest
      | none => loadCsvList res pr rest

/-- DataManager._load_csv_results on the rows of the export file. -/
def DataManager.load_csv_results (dm : DataManager) (rows : List InputRow) : DataManager :=
  let res := loadCsvList dm.results dm.processed_inns rows
  { dm with results := res.1, processed_inns := res.2 }

/- --------------------------------------------------------------------
   src/site_parsers.py
   -------------------------------------------------------------------- -/

/-- Default of RAIFFEISEN_BLOCK_TIME_SECONDS. -/
def RAIFFEISEN_BLOCK_TIME_SECONDS : Nat := 3600

/-- Default of RAIFFEISEN_SECONDARY_WAIT_SECONDS. -/
def RAIFFEISEN_SECONDARY_WAIT_SECONDS : Nat := 600

/-- The module-global circuit-breaker state of site_parsers.py
    (raiffeisen_blocked, raiffeisen_block_time); times are seconds. -/
structure RaiffeisenState where
  blocked : Bool
  block_time : Nat
deriving DecidableEq, Repr

/-- set_raiffeisen_blocked at time now: trip only when not blocked yet or
    when the last trip is older than the secondary-wait window. -/
def set_raiffeisen_blocked (st : RaiffeisenState) (now : Nat) : RaiffeisenState :=
  if st.blocked = false ∨ RAIFFEISEN_SECONDARY_WAIT_SECONDS < now - st.block_time then
    { blocked := true, block_time := now }
  else st

/-- is_raiffeisen_blocked at time now: returns the answer and the state,
    clearing the flag once the block time has fully elapsed. -/
def is_raiffeisen_blocked (st : RaiffeisenState) (now : Nat) : Bool × RaiffeisenState :=
  if st.blocked = false then (false, st)
  else if RAIFFEISEN_BLOCK_TIME_SECONDS ≤ now - st.block_time then
    (false, { st with blocked := false })
  else (true, st)

/-- site_parsers.KeyRotator: a credential list with a round-robin index. -/
structure KeyRotator where
  keys : List String
  current_index : Nat
deriving DecidableEq, Repr

/-- KeyRotator.get_current_key. -/
def KeyRotator.get_current_key (kr : KeyRotator) : Option String :=
  match kr.keys with
  | [] => none
  | _ => kr.keys.get? kr.current_index

/-- KeyRotator.rotate_key: advance the index round-robin. -/
def KeyRotator.rotate_key (kr : KeyRotator) : KeyRotator :=
  match kr.keys with
  | [] => kr
  | _ => { kr with current_index := (kr.current_index + 1) % kr.keys.length }

/-- Default of MAX_KEY_ATTEMPTS in DadataParser.__init__. -/
def DEFAULT_MAX_KEY_ATTEMPTS : Nat := 3

/-- Credential-handling state of one DadataParser instance:
    the rotator, the per-key consecutive-failure dict, the configured
    failure-streak threshold, and the pinned-token fields. -/
structure DadataKeyState where
  rotator : KeyRotator
  failed_key_attempts : List (String × Nat)
  max_key_attempts : Nat
  force_token : Option String
  ignore_force_token_temporarily : Bool
deriving DecidableEq, Repr

/-- A fresh DadataParser credential state over the given key list. -/
def DadataKeyState.fresh (keys : List String) : DadataKeyState :=
  { rotator := { keys := keys, current_index := 0 },
    failed_key_attempts := [], max_key_attempts := DEFAULT_MAX_KEY_ATTEMPTS,
    force_token := none, ignore_force_token_temporarily := false }

/-- The key the next Dadata client is created with
    (DadataParser._create_dadata_client): the pinned token when active,
    else the rotator's current key. -/
def DadataKeyState.client_key (st : DadataKeyState) : Option String :=
  match st.force_token with
  | some t => if st.ignore_force_token_temporarily then st.rotator.get_current_key else some t
  | none => st.rotator.get_current_key

/-- DadataParser._rotate_dadata_client on the credential state: keep the
    pinned token when active, otherwise advance the rotator. -/
def DadataKeyState.rotate_client (st : DadataKeyState) : DadataKeyState :=
  match st.force_token with
  | some _ => if st.ignore_force_token_temporarily then { st with rotator := st.rotator.rotate_key } else st
  | none => { st with rotator := st.rotator.rotate_key }

/-- HTTP failure classification in DadataParser.parse_company:
    403 is an authorization rejection, 429 a quota rejection. -/
inductive DadataFailure where
  | auth
  | quota
  | other
deriving DecidableEq, Repr

/-- DadataParser._temporarily_ignore_force_token. -/
def DadataKeyState.drop_force_token (st : DadataKeyState) : DadataKeyState :=
  { st with ignore_force_token_temporarily := true }

/-- Exception branch of DadataParser.parse_company: a 403 bumps the
    current key's consecutive-failure count and rotates only once the
    count reaches max_key_attempts; a 429 rotates at once; any other
    error only logs. -/
def DadataKeyState.handle_failure (st : DadataKeyState) (e : DadataFailure) : DadataKeyState :=
  match e with
  | .auth =>
      match st.rotator.get_current_key with
      | none => st
      | some k =>
          let n := (dictLookup st.failed_key_attempts k).getD 0 + 1
          let st1 := { st with failed_key_attempts := dictInsert st.failed_key_attempts k n }
          if st1.max_key_attempts ≤ n then
            let st2 := if st1.force_token = some k then st1.drop_force_token else st1
            st2.rotate_client
          else st1
  | .quota =>
      match st.rotator.get_current_key with
      | none => st.rotate_client
      | some k =>
          let st1 := if st.force_token = some k then st.drop_force_token else st
          st1.rotate_client
  | .other => st

/-- Success branch of DadataParser.parse_company: the current key's
    failure streak is deleted. -/
def DadataKeyState.handle_success (st : DadataKeyState) : DadataKeyState :=
  match st.rotator.get_current_key with
  | none => st
  | some k => { st with failed_key_attempts := dictErase st.failed_key_attempts k,
                        ignore_force_token_temporarily := false }

/-- Repeated authorization failures, oldest first. -/
def DadataKeyState.auth_failures (st : DadataKeyState) : Nat → DadataKeyState
  | 0 => st
  | n + 1 => (st.handle_failure .auth).auth_failures n

/-- Default max_retries of FocusKonturParser.__init__. -/
def FOCUS_DEFAULT_MAX_RETRIES : Nat := 1

/-- Observable outcome of one attempt of FocusKonturParser.parse_company;
    the DOM scraping itself is the external collaborator, so one attempt
    is classified by which branch of the method it reaches. -/
inductive FocusOutcome where
  /-- the rate-limit ban page was shown -/
  | blockedLimit
  /-- the browser landed on a data: or non-http URL -/
  | badUrl
  /-- TimeoutException while waiting for the page or its elements -/
  | timeoutSearch
  /-- the search answered with the page saying to check the query -/
  | notFoundPage
  /-- the company page loaded and extraction yielded these fields -/
  | extracted (nm ninn : Option String)
  /-- WebDriverException during the attempt -/
  | webDriverErr
  /-- any other exception during the attempt -/
  | otherErr
deriving DecidableEq, Repr

/-- The sentinel FocusKonturParser stores when a lookup ends without
    data: both chairman fields become the same not-found marker text. -/
def markNotFound (c : CompanyData) : CompanyData :=
  { c with chairman_name := some "не найдено", chairman_inn := some "не найдено" }

/-- FocusKonturParser.parse_company as a function of the per-attempt
    outcomes: the ban page returns None, a not-found page returns the
    company marked not found, every retryable error (timeout, bad URL,
    web-driver or other exception) retries while attempts remain and on
    the last attempt also returns the company marked not found. -/
def FocusKonturParser.parse_company (c : CompanyData) :
    Nat → List FocusOutcome → Option CompanyData
  | _, [] => some (markNotFound c)
  | remaining, o :: os =>
      let isLast : Bool := remaining ≤ 1
      match o with
      | .blockedLimit => none
      | .notFoundPage => some (markNotFound c)
      | .extracted nm ninn =>
          some { c with chairman_name := nm, chairman_inn := ninn }
      | .badUrl =>
          if isLast then some (markNotFound c)
          else FocusKonturParser.parse_company c (remaining - 1) os
      | .timeoutSearch =>
          if isLast then some (markNotFound c)
          else FocusKonturParser.parse_company c (remaining - 1) os
      | .webDriverErr =>
          if isLast then some (markNotFound c)
          else FocusKonturParser.parse_company c (remaining - 1) os
      | .otherErr =>
          if isLast then some (markNotFound c)
          else FocusKonturParser.parse_company c (remaining - 1) os

/-- A Python attribute value that is either a string or a number, as
    needed because BaseSiteParser.__init__ is sometimes handed a float
    where its site_name parameter is expected. -/
inductive PyVal where
  | str (v : String)
  | num (v : Rat)
deriving DecidableEq, Repr

/-- parser_base.BaseSiteParser attributes set by its constructor. -/
structure BaseSiteParser where
  site_name : PyVal
  rate_limit : Rat
deriving DecidableEq, Repr

/-- BaseSiteParser.__init__(site_name, rate_limit=1.0). -/
def BaseSiteParser.base_init (site_name : PyVal) (rate_limit : Rat := 1) : BaseSiteParser :=
  { site_name := site_name, rate_limit := rate_limit }

/-- FocusKonturParser.__init__(rate_limit=2.0, ...): it calls
    super().__init__(rate_limit), so the number lands in the base
    constructor's site_name slot, and then overwrites site_name. -/
def FocusKonturParser.construct (rate_limit : Rat) : BaseSiteParser :=
  let base := BaseSiteParser.base_init (PyVal.num rate_limit)
  { base with site_name := PyVal.str "focus.kontur.ru" }

/-- AuditItParser.__init__(rate_limit=2.0): same pattern, it calls
    super().__init__(rate_limit) and then overwrites site_name. -/
def AuditItParser.construct (rate_limit : Rat) : BaseSiteParser :=
  let base := BaseSiteParser.base_init (PyVal.num rate_limit)
  { base with site_name := PyVal.str "www.audit-it.ru" }

/-- CheckoParser.__init__(rate_limit=2.0), which does pass its
    site_name string: super().__init__("checko.ru", rate_limit). -/
def CheckoParser.construct (rate_limit : Rat) : BaseSiteParser :=
  BaseSiteParser.base_init (PyVal.str "checko.ru") rate_limit

/-- The pacing sleep of parse_companies between two lookups is
    asyncio.sleep(self.rate_limit). -/
def interRequestDelay (p : BaseSiteParser) : Rat :=
  p.rate_limit

/- --------------------------------------------------------------------
   src/parser_base.py ParserManager (sequential dispatch branch)
   -------------------------------------------------------------------- -/

/-- Modelled from the spec: the ApiLimitExceeded exception
    (TerminalFailure, source-wide quota exhaustion) that
    ParserManager.process_batch imports from site_parsers and catches is
    not defined anywhere under src/; a batch either completes with its
    result list or aborts with this terminal condition. -/
inductive BatchOutcome where
  | ok (results : List CompanyData)
  | apiLimit
deriving DecidableEq, Repr

/-- One connector with the batch behaviour its lookups produce. -/
structure ParserTask where
  parser_name : String
  outcome : BatchOutcome
deriving DecidableEq, Repr

/-- ParserManager state during run: the data manager, the should_stop
    flag set on ApiLimitExceeded, and the names of batches started. -/
structure ManagerState where
  dm : DataManager
  should_stop : Bool
  started : List String
deriving DecidableEq, Repr

/-- ParserManager.process_batch: a completed batch records every result
    through DataManager.update_results; ApiLimitExceeded forces a save
    and sets the manager-wide should_stop flag. -/
def ParserManager.process_batch (st : ManagerState) (t : ParserTask) : ManagerState :=
  match t.outcome with
  | .ok rs =>
      { st with dm := rs.foldl DataManager.update_results st.dm,
                started := st.started ++ [t.parser_name] }
  | .apiLimit =>
      { st with dm := st.dm.save_results true,
                should_stop := true,
                started := st.started ++ [t.parser_name] }

/-- The sequential task loop of ParserManager.run (taken when
    max_workers <= 1 or there is a single task): before each task the
    should_stop flag is checked and the loop breaks once it is set. -/
def ParserManager.run_tasks (st : ManagerState) : List ParserTask → ManagerState
  | [] => st
  | t :: ts =>
      if st.should_stop then st
      else ParserManager.run_tasks (ParserManager.process_batch st t) ts

/-- ParserManager.run after the loop: one final forced save. -/
def ParserManager.run_seq (dm : DataManager) (tasks : List ParserTask) : ManagerState :=
  let st := ParserManager.run_tasks { dm := dm, should_stop := false, started := [] } tasks
  { st with dm := st.dm.save_results true }

/-- ParserManager.distribute_companies: round-robin over the parsers,
    company i goes to parser (i % n). -/
def distribute_companies (n : Nat) (cs : List CompanyData) : List (List CompanyData) :=
  (List.range n).map (fun j => ((cs.enum.filter (fun p => p.1 % n = j)).map Prod.snd))

/- --------------------------------------------------------------------
   src/main.py shutdown machinery
   -------------------------------------------------------------------- -/

/-- The module globals of main.py that coordinate shutdown, plus
    observables: how many termination flushes ran and whether the
    process has terminated (and with which exit code). -/
structure MainState where
  is_saving : Bool
  is_exiting : Bool
  flushes : Nat
  terminated : Bool
  exit_code : Option Nat
deriving DecidableEq, Repr

/-- main.py at import time. -/
def MainState.start : MainState :=
  { is_saving := false, is_exiting := false, flushes := 0,
    terminated := false, exit_code := none }

/-- The flush block shared by every termination path: merge
    runtime_results into the durable maps, save the cache, save the CSV;
    counted as one forced flush. -/
def MainState.do_flush (st : MainState) : MainState :=
  { st with flushes := st.flushes + 1 }

/-- main.signal_handler: a repeated signal while is_exiting is already
    set terminates at once with os._exit(1) and no flush; the first
    signal sets is_exiting, flushes once unless a save is already in
    progress, and terminates with os._exit(0). -/
def signal_handler (st : MainState) : MainState :=
  if st.terminated then st
  else if st.is_exiting then { st with terminated := true, exit_code := some 1 }
  else
    let st1 := { st with is_exiting := true }
    let st2 := if st1.is_saving then st1 else st1.do_flush
    { st2 with terminated := true, exit_code := some 0 }

/-- The moment inside the first signal_handler call where is_exiting is
    set and the flush is still in progress (is_saving is held): the
    state a second concurrent signal would observe. -/
def signal_handler_mid_flush (st : MainState) : MainState :=
  if st.terminated ∨ st.is_exiting then st
  else { st with is_exiting := true, is_saving := true, flushes := st.flushes + 1 }

/-- main.save_on_exit (the atexit hook): flush only when a data manager
    exists, no save is in progress and the program is not already on an
    exit path. -/
def save_on_exit (st : MainState) : MainState :=
  if st.is_saving = false ∧ st.is_exiting = false then st.do_flush else st

/-- Normal completion: ParserManager.run ends with one forced
    save_results(force=True), then the main guard sets is_exiting and
    sys.exit fires the atexit hook. -/
def main_normal_completion (st : MainState) : MainState :=
  let st1 := st.do_flush
  let st2 := { st1 with is_exiting := true }
  let st3 := save_on_exit st2
  { st3 with terminated := true, exit_code := some 0 }

/-- An unhandled error inside main: the except-branch flushes once,
    main returns 1, the main guard sets is_exiting and sys.exit fires
    the atexit hook. -/
def main_unhandled_error (st : MainState) : MainState :=
  let st1 := if st.is_saving then st else st.do_flush
  let st2 := { st1 with is_exiting := true }
  let st3 := save_on_exit st2
  { st3 with terminated := true, exit_code := some 1 }

/- --------------------------------------------------------------------
   Concrete inputs used by the claim theorems below
   -------------------------------------------------------------------- -/

/-- A manually curated export row for id 0123456789. -/
def c1_oldRow : CompanyData :=
  { name := "Coop A", inn := some "0123456789",
    chairman_name := some "Curated Name", chairman_inn := some "111111111111",
    source := some "manual" }

/-- A current-run result row for the same id 0123456789. -/
def c1_newRow : CompanyData :=
  { name := "Coop A", inn := some "0123456789",
    chairman_name := some "Parsed Name", chairman_inn := some "222222222222",
    source := some "dadata.ru" }

/-- The entity whose lookup times out in the C2 scenario. -/
def c2_company : CompanyData := CompanyData.make "Coop B" (some "0123456789")

/-- A company assigned to the second source in the C4 scenario. -/
def c4_companyY : CompanyData := CompanyData.make "Coop Y" (some "1111111111")

/-- The first source: its batch hits the API limit. -/
def c4_taskX : ParserTask := { parser_name := "dadata.ru", outcome := .apiLimit }

/-- The second source: its batch would succeed with one result. -/
def c4_taskY : ParserTask := { parser_name := "checko.ru", outcome := .ok [c4_companyY] }

/-- The single result recorded in the C5 scenario. -/
def c5_company : CompanyData := CompanyData.make "Coop C" (some "2222222222")

/-- A two-key credential pool where the first key keeps failing. -/
def c6_pool : DadataKeyState := DadataKeyState.fresh ["k1", "k2"]

/-- An input row that already carries a chairman name but no chairman
    id. -/
def c9_row : InputRow :=
  { name := "Coop D", inn := some "0555555555",
    chairman_name := some "Ivanov Ivan Ivanovich", chairman_inn := none }

/-- An input row that carries both chairman cells. -/
def c9_fullRow : InputRow :=
  { name := "Coop E", inn := some "0666666666",
    chairman_name := some "Petrov Petr Petrovich",
    chairman_inn := some "333333333333", source := some "manual" }

/-- The pending result used in the C8 witness scenario. -/
def c8_company : CompanyData :=
  { name := "Coop F", inn := some "0777777777",
    chairman_name := some "Sidorov Sidor Sidorovich",
    chairman_inn := some "444444444444", source := some "checko.ru" }

/-- A data manager holding one pending runtime result. -/
def c8_dm : DataManager :=
  { DataManager.fresh 2 with
      runtime_results := [("0777777777", c8_company)],
      save_results_counter := 1 }

/- --------------------------------------------------------------------
   Helper lemmas on the dict and set model
   -------------------------------------------------------------------- -/

theorem dictLookup_insert_self {α : Type} (m : List (String × α)) (k : String) (v : α) :
    dictLookup (dictInsert m k v) k = some v := by
  induction m with
  | nil => simp [dictInsert, dictLookup]
  | cons p rest ih =>
      obtain ⟨k1, v1⟩ := p
      by_cases h : k1 = k
      · simp [dictInsert, dictLookup, h]
      · simp [dictInsert, dictLookup, h, ih]

theorem dictLookup_insert_ne {α : Type} (m : List (String × α)) (k k' : String) (v : α)
    (h : k' ≠ k) : dictLookup (dictInsert m k v) k' = dictLookup m k' := by
  have h' : ¬ k = k' := fun hh => h hh.symm
  induction m with
  | nil => simp [dictInsert, dictLookup, h']
  | cons p rest ih =>
      obtain ⟨k1, v1⟩ := p
      by_cases h1 : k1 = k
      · subst h1
        simp [dictInsert, dictLookup, h']
      · simp [dictInsert, dictLookup, h1, ih]

theorem dictLookup_append_of_hasKey {α : Type} (m l : List (String × α)) (k : String)
    (h : dictHasKey m k = true) : dictLookup (m ++ l) k = dictLookup m k := by
  induction m with
  | nil => simp [dictHasKey] at h
  | cons p rest ih =>
      obtain ⟨k1, v1⟩ := p
      by_cases h1 : k1 = k
      · simp [dictLookup, h1]
      · simp [dictHasKey, h1] at h
        simp [dictLookup, h1, ih h]

theorem dictHasKey_append {α : Type} (m l : List (String × α)) (k : String) :
    dictHasKey (m ++ l) k = (dictHasKey m k || dictHasKey l k) := by
  induction m with
  | nil => simp [dictHasKey]
  | cons p rest ih =>
      obtain ⟨k1, v1⟩ := p
      by_cases h1 : k1 = k
      · simp [dictHasKey, h1]
      · simp [dictHasKey, h1, ih]

theorem dictLookup_append_single_self {α : Type} (m : List (String × α)) (k : String) (v : α)
    (h : dictHasKey m k = false) : dictLookup (m ++ [(k, v)]) k = some v := by
  induction m with
  | nil => simp [dictLookup]
  | cons p rest ih =>
      obtain ⟨k1, v1⟩ := p
      by_cases h1 : k1 = k
      · simp [dictHasKey, h1] at h
      · simp [dictHasKey, h1] at h
        simp [dictLookup, h1, ih h]

theorem mem_setInsert_self (s : List String) (k : String) : k ∈ setInsert s k := by
  by_cases h : k ∈ s <;> simp [setInsert, h]

theorem mem_setInsert_of_mem (s : List String) (k a : String) (h : a ∈ s) :
    a ∈ setInsert s k := by
  by_cases hk : k ∈ s <;> simp [setInsert, hk, h]

/- Helper lemmas: the absorb passes of save_results and _save_cache. -/

theorem absorbStep_proj (dm : DataManager) (p : String × CompanyData) :
    (absorbStep dm p).runtime_results = dm.runtime_results ∧
    (absorbStep dm p).save_results_counter = dm.save_results_counter ∧
    (absorbStep dm p).save_interval = dm.save_interval ∧
    (absorbStep dm p).seconds_since_last_save = dm.seconds_since_last_save ∧
    (absorbStep dm p).cache_writes = dm.cache_writes ∧
    (absorbStep dm p).csv_writes = dm.csv_writes ∧
    (absorbStep dm p).csv_file = dm.csv_file := by
  simp [absorbStep]

theorem absorbList_proj (l : List (String × CompanyData)) (dm : DataManager) :
    (absorbList dm l).runtime_results = dm.runtime_results ∧
    (absorbList dm l).save_results_counter = dm.save_results_counter ∧
    (absorbList dm l).save_interval = dm.save_interval ∧
    (absorbList dm l).seconds_since_last_save = dm.seconds_since_last_save ∧
    (absorbList dm l).cache_writes = dm.cache_writes ∧
    (absorbList dm l).csv_writes = dm.csv_writes ∧
    (absorbList dm l).csv_file = dm.csv_file := by
  induction l generalizing dm with
  | nil => simp [absorbList]
  | cons p rest ih =>
      have h := ih (absorbStep dm p)
      simpa [absorbList, absorbStep] using h

theorem absorbCacheList_proj (l : List (String × CompanyData)) (dm : DataManager) :
    (absorbCacheList dm l).runtime_results = dm.runtime_results ∧
    (absorbCacheList dm l).save_results_counter = dm.save_results_counter ∧
    (absorbCacheList dm l).save_interval = dm.save_interval ∧
    (absorbCacheList dm l).seconds_since_last_save = dm.seconds_since_last_save ∧
    (absorbCacheList dm l).cache_writes = dm.cache_writes ∧
    (absorbCacheList dm l).csv_writes = dm.csv_writes ∧
    (absorbCacheList dm l).csv_file = dm.csv_file := by
  induction l generalizing dm with
  | nil => simp [absorbCacheList]
  | cons p rest ih =>
      by_cases h : p.1 = ""
      · simpa [absorbCacheList, h] using ih dm
      · have hh := ih (absorbStep dm p)
        simpa [absorbCacheList, absorbStep, h] using hh

theorem save_to_csv_proj (dm : DataManager) :
    (dm.save_to_csv).runtime_results = dm.runtime_results ∧
    (dm.save_to_csv).results = dm.results ∧
    (dm.save_to_csv).processed_inns = dm.processed_inns ∧
    (dm.save_to_csv).cache_writes = dm.cache_writes := by
  unfold DataManager.save_to_csv
  by_cases h : dm.results = []
  · simp [h]
  · cases hf : dm.csv_file <;> simp [h, hf]

theorem save_to_csv_results_eq (dm : DataManager) :
    (dm.save_to_csv).results = dm.results :=
  (save_to_csv_proj dm).2.1

theorem save_to_csv_processed_eq (dm : DataManager) :
    (dm.save_to_csv).processed_inns = dm.processed_inns :=
  (save_to_csv_proj dm).2.2.1

theorem save_to_csv_runtime_eq (dm : DataManager) :
    (dm.save_to_csv).runtime_results = dm.runtime_results :=
  (save_to_csv_proj dm).1

theorem absorbList_results_of_not_mem (l : List (String × CompanyData)) (dm : DataManager)
    (t : String) (h : ∀ q ∈ l, q.1.pyStrip ≠ t) :
    dictLookup (absorbList dm l).results t = dictLookup dm.results t := by
  induction l generalizing dm with
  | nil => simp [absorbList]
  | cons p rest ih =>
      have hp : p.1.pyStrip ≠ t := h p (by simp)
      have hrest : ∀ q ∈ rest, q.1.pyStrip ≠ t := fun q hq => h q (by simp [hq])
      calc dictLookup (absorbList (absorbStep dm p) rest).results t
          = dictLookup (absorbStep dm p).results t := ih (absorbStep dm p) hrest
        _ = dictLookup dm.results t := by
            simp [absorbStep, dictLookup_insert_ne _ _ _ _ (fun hh => hp hh.symm)]

theorem absorbList_results_mem (l : List (String × CompanyData)) (dm : DataManager)
    (hnodup : (l.map (fun p => p.1.pyStrip)).Nodup) :
    ∀ p ∈ l, dictLookup (absorbList dm l).results p.1.pyStrip = some p.2 := by
  induction l generalizing dm with
  | nil => simp
  | cons q rest ih =>
      have hnd : q.1.pyStrip ∉ rest.map (fun x => x.1.pyStrip) ∧
          (rest.map (fun x => x.1.pyStrip)).Nodup := by
        constructor
        · exact (List.nodup_cons.mp (by simpa using hnodup)).1
        · exact (List.nodup_cons.mp (by simpa using hnodup)).2
      intro p hp
      rcases List.mem_cons.mp hp with hph | hpr
      · subst hph
        have hq : ∀ r ∈ rest, r.1.pyStrip ≠ p.1.pyStrip := by
          intro r hr heq
          have hmem : r.1.pyStrip ∈ rest.map (fun x => x.1.pyStrip) :=
            List.mem_map_of_mem (fun x => x.1.pyStrip) hr
          rw [heq] at hmem
          exact hnd.1 hmem
        show dictLookup (absorbList (absorbStep dm p) rest).results p.1.pyStrip = some p.2
        rw [absorbList_results_of_not_mem rest _ _ hq]
        simp [absorbStep, dictLookup_insert_self]
      · show dictLookup (absorbList (absorbStep dm q) rest).results p.1.pyStrip = some p.2
        exact ih (absorbStep dm q) hnd.2 p hpr

theorem absorbList_processed_mono (l : List (String × CompanyData)) (dm : DataManager)
    (a : String) (h : a ∈ dm.processed_inns) :
    a ∈ (absorbList dm l).processed_inns := by
  induction l generalizing dm with
  | nil => simpa [absorbList] using h
  | cons p rest ih =>
      exact ih (absorbStep dm p) (mem_setInsert_of_mem _ _ _ h)

theorem absorbList_processed_mem (l : List (String × CompanyData)) (dm : DataManager) :
    ∀ p ∈ l, p.1.pyStrip ∈ (absorbList dm l).processed_inns := by
  induction l generalizing dm with
  | nil => simp
  | cons q rest ih =>
      intro p hp
      rcases List.mem_cons.mp hp with hph | hpr
      · subst hph
        show p.1.pyStrip ∈ (absorbList (absorbStep dm p) rest).processed_inns
        exact absorbList_processed_mono rest (absorbStep dm p) _
          (by simp [absorbStep, mem_setInsert_self])
      · show p.1.pyStrip ∈ (absorbList (absorbStep dm q) rest).processed_inns
        exact ih (absorbStep dm q) p hpr

theorem absorbCacheList_results_stable (l : List (String × CompanyData)) (dm : DataManager)
    (t : String) (v : CompanyData)
    (h : ∀ q ∈ l, q.1.pyStrip = t → q.2 = v)
    (hl : dictLookup dm.results t = some v) :
    dictLookup (absorbCacheList dm l).results t = some v := by
  induction l generalizing dm with
  | nil => simpa [absorbCacheList] using hl
  | cons p rest ih =>
      have hrest : ∀ q ∈ rest, q.1.pyStrip = t → q.2 = v := fun q hq => h q (by simp [hq])
      by_cases hemp : p.1 = ""
      · rw [absorbCacheList, if_pos hemp]
        exact ih dm hrest hl
      · rw [absorbCacheList, if_neg hemp]
        apply ih (absorbStep dm p) hrest
        by_cases ht : p.1.pyStrip = t
        · have := h p (by simp) ht
          subst this
          simp [absorbStep, ht, dictLookup_insert_self]
        · simp [absorbStep, dictLookup_insert_ne _ _ _ _ (fun hh => ht hh.symm), hl]

theorem absorbCacheList_processed_mono (l : List (String × CompanyData)) (dm : DataManager)
    (a : String) (h : a ∈ dm.processed_inns) :
    a ∈ (absorbCacheList dm l).processed_inns := by
  induction l generalizing dm with
  | nil => simpa [absorbCacheList] using h
  | cons p rest ih =>
      by_cases hemp : p.1 = ""
      · rw [absorbCacheList, if_pos hemp]
        exact ih dm h
      · rw [absorbCacheList, if_neg hemp]
        exact ih (absorbStep dm p) (mem_setInsert_of_mem _ _ _ h)

/- Helper lemmas: the two merge loops of _save_to_csv. -/

theorem addExistingRows_lookup_of_hasKey (rows : List CompanyData)
    (m : List (String × CompanyData)) (k : String) (h : dictHasKey m k = true) :
    dictLookup (addExistingRows m rows) k = dictLookup m k := by
  induction rows generalizing m with
  | nil => simp [addExistingRows]
  | cons r rs ih =>
      cases hik : innKey r with
      | none => simpa [addExistingRows, hik] using ih m h
      | some k1 =>
          by_cases hk1 : dictHasKey m k1
          · simpa [addExistingRows, hik, hk1] using ih m h
          · have hkey : dictHasKey (m ++ [(k1, r)]) k = true := by
              rw [dictHasKey_append]
              simp [h]
            have := ih (m ++ [(k1, r)]) hkey
            rw [dictLookup_append_of_hasKey m [(k1, r)] k h] at this
            simpa [addExistingRows, hik, hk1] using this

theorem addExistingRows_hasKey_mono (rows : List CompanyData)
    (m : List (String × CompanyData)) (k : String) (h : dictHasKey m k = true) :
    dictHasKey (addExistingRows m rows) k = true := by
  induction rows generalizing m with
  | nil => simpa [addExistingRows] using h
  | cons r rs ih =>
      cases hik : innKey r with
      | none => simpa [addExistingRows, hik] using ih m h
      | some k1 =>
          by_cases hk1 : dictHasKey m k1
          · simpa [addExistingRows, hik, hk1] using ih m h
          · have hkey : dictHasKey (m ++ [(k1, r)]) k = true := by
              rw [dictHasKey_append]
              simp [h]
            simpa [addExistingRows, hik, hk1] using ih (m ++ [(k1, r)]) hkey

theorem addExistingRows_lookup_absent (rows : List CompanyData)
    (m : List (String × CompanyData)) (k : String)
    (hm : dictHasKey m k = false) (hex : ∃ r ∈ rows, innKey r = some k) :
    ∃ v ∈ rows, innKey v = some k ∧ dictLookup (addExistingRows m rows) k = some v := by
  induction rows generalizing m with
  | nil =>
      rcases hex with ⟨r, hr, _⟩
      simp at hr
  | cons r rs ih =>
      cases hik : innKey r with
      | none =>
          have hex1 : ∃ x ∈ rs, innKey x = some k := by
            rcases hex with ⟨x, hx, hxk⟩
            rcases List.mem_cons.mp hx with hxr | hxs
            · rw [hxr, hik] at hxk
              cases hxk
            · exact ⟨x, hxs, hxk⟩
          obtain ⟨v, hv, hvk, hlook⟩ := ih m hm hex1
          exact ⟨v, List.mem_cons_of_mem r hv, hvk, by simpa [addExistingRows, hik] using hlook⟩
      | some k1 =>
          by_cases hkk : k1 = k
          · subst hkk
            refine ⟨r, by simp, hik, ?_⟩
            have hkey : dictHasKey (m ++ [(k1, r)]) k1 = true := by
              rw [dictHasKey_append]
              simp [dictHasKey]
            have hstep := addExistingRows_lookup_of_hasKey rs (m ++ [(k1, r)]) k1 hkey
            rw [dictLookup_append_single_self m k1 r hm] at hstep
            simpa [addExistingRows, hik, hm] using hstep
          · have hex1 : ∃ x ∈ rs, innKey x = some k := by
              rcases hex with ⟨x, hx, hxk⟩
              rcases List.mem_cons.mp hx with hxr | hxs
              · rw [hxr, hik] at hxk
                exact absurd (Option.some.inj hxk) hkk
              · exact ⟨x, hxs, hxk⟩
            by_cases hk1 : dictHasKey m k1
            · obtain ⟨v, hv, hvk, hlook⟩ := ih m hm hex1
              exact ⟨v, List.mem_cons_of_mem r hv, hvk,
                by simpa [addExistingRows, hik, hk1] using hlook⟩
            · have hm1 : dictHasKey (m ++ [(k1, r)]) k = false := by
                rw [dictHasKey_append]
                simp [hm, dictHasKey, hkk]
              obtain ⟨v, hv, hvk, hlook⟩ := ih (m ++ [(k1, r)]) hm1 hex1
              exact ⟨v, List.mem_cons_of_mem r hv, hvk,
                by simpa [addExistingRows, hik, hk1] using hlook⟩

theorem dictHasKey_insert_self {α : Type} (m : List (String × α)) (k : String) (v : α) :
    dictHasKey (dictInsert m k v) k = true := by
  induction m with
  | nil => simp [dictInsert, dictHasKey]
  | cons p rest ih =>
      obtain ⟨kp, vp⟩ := p
      by_cases hkp : kp = k
      · simp [dictInsert, dictHasKey, hkp]
      · simp [dictInsert, dictHasKey, hkp, ih]

theorem dictHasKey_insert_mono {α : Type} (m : List (String × α)) (k k1 : String) (v : α)
    (h : dictHasKey m k = true) : dictHasKey (dictInsert m k1 v) k = true := by
  induction m with
  | nil => simp [dictHasKey] at h
  | cons p rest ih =>
      obtain ⟨kp, vp⟩ := p
      by_cases hkp : kp = k1
      · subst hkp
        by_cases hke : kp = k
        · simp [dictHasKey, dictInsert, hke]
        · simp [dictHasKey, hke] at h
          simp [dictHasKey, dictInsert, hke, h]
      · by_cases hke : kp = k
        · subst hke
          simp [dictHasKey, dictInsert, hkp]
        · simp [dictHasKey, hke] at h
          simp [dictHasKey, dictInsert, hkp, hke, ih h]

theorem addCurrentRows_hasKey_mono (rows : List CompanyData)
    (m : List (String × CompanyData)) (k : String) (h : dictHasKey m k = true) :
    dictHasKey (addCurrentRows m rows) k = true := by
  induction rows generalizing m with
  | nil => simpa [addCurrentRows] using h
  | cons r rs ih =>
      cases hik : innKey r with
      | none => simpa [addCurrentRows, hik] using ih m h
      | some k1 =>
          simpa [addCurrentRows, hik] using ih _ (dictHasKey_insert_mono m k k1 r h)

theorem addCurrentRows_hasKey (rows : List CompanyData) (m : List (String × CompanyData))
    (k : String) (hex : ∃ r ∈ rows, innKey r = some k) :
    dictHasKey (addCurrentRows m rows) k = true := by
  induction rows generalizing m with
  | nil =>
      rcases hex with ⟨r, hr, _⟩
      simp at hr
  | cons r rs ih =>
      cases hik : innKey r with
      | none =>
          have hex1 : ∃ x ∈ rs, innKey x = some k := by
            rcases hex with ⟨x, hx, hxk⟩
            rcases List.mem_cons.mp hx with hxr | hxs
            · rw [hxr, hik] at hxk
              cases hxk
            · exact ⟨x, hxs, hxk⟩
          simpa [addCurrentRows, hik] using ih m hex1
      | some k1 =>
          by_cases hkk : k1 = k
          · subst hkk
            simpa [addCurrentRows, hik] using
              addCurrentRows_hasKey_mono rs (dictInsert m k1 r) k1
                (dictHasKey_insert_self m k1 r)
          · have hex1 : ∃ x ∈ rs, innKey x = some k := by
              rcases hex with ⟨x, hx, hxk⟩
              rcases List.mem_cons.mp hx with hxr | hxs
              · rw [hxr, hik] at hxk
                exact absurd (Option.some.inj hxk) hkk
              · exact ⟨x, hxs, hxk⟩
            simpa [addCurrentRows, hik] using ih (dictInsert m k1 r) hex1

/- Helper lemmas: the sequential dispatch loop of ParserManager.run. -/

theorem process_batch_ok (st : ManagerState) (t : ParserTask) (rs : List CompanyData)
    (h : t.outcome = BatchOutcome.ok rs) :
    (ParserManager.process_batch st t).should_stop = st.should_stop ∧
    (ParserManager.process_batch st t).started = st.started ++ [t.parser_name] := by
  simp [ParserManager.process_batch, h]

theorem process_batch_limit (st : ManagerState) (t : ParserTask)
    (h : t.outcome = BatchOutcome.apiLimit) :
    (ParserManager.process_batch st t).should_stop = true ∧
    (ParserManager.process_batch st t).started = st.started ++ [t.parser_name] := by
  simp [ParserManager.process_batch, h]

theorem run_tasks_stopped (ts : List ParserTask) (st : ManagerState)
    (h : st.should_stop = true) : ParserManager.run_tasks st ts = st := by
  cases ts <;> simp [ParserManager.run_tasks, h]

theorem run_tasks_halts_at_limit (ps : List ParserTask) (t : ParserTask)
    (qs : List ParserTask) (st : ManagerState) (hstop : st.should_stop = false)
    (hps : ∀ p ∈ ps, ∃ rs, p.outcome = BatchOutcome.ok rs)
    (ht : t.outcome = BatchOutcome.apiLimit) :
    (ParserManager.run_tasks st (ps ++ t :: qs)).started
        = st.started ++ ps.map ParserTask.parser_name ++ [t.parser_name] ∧
    (ParserManager.run_tasks st (ps ++ t :: qs)).should_stop = true := by
  induction ps generalizing st with
  | nil =>
      rw [List.nil_append, ParserManager.run_tasks]
      rw [if_neg (by simp [hstop])]
      have hlim := process_batch_limit st t ht
      rw [run_tasks_stopped qs _ hlim.1]
      simp [hlim.1, hlim.2]
  | cons p ps ih =>
      obtain ⟨rs, hrs⟩ := hps p (by simp)
      have hok := process_batch_ok st p rs hrs
      rw [List.cons_append, ParserManager.run_tasks]
      rw [if_neg (by simp [hstop])]
      have hrec := ih (ParserManager.process_batch st p)
        (hok.1.trans hstop)
        (fun q hq => hps q (by simp [hq]))
      rw [hrec.1, hok.2]
      refine ⟨by simp, hrec.2⟩

theorem run_seq_proj (dm : DataManager) (tasks : List ParserTask) :
    (ParserManager.run_seq dm tasks).started
        = (ParserManager.run_tasks { dm := dm, should_stop := false, started := [] } tasks).started ∧
    (ParserManager.run_seq dm tasks).should_stop
        = (ParserManager.run_tasks { dm := dm, should_stop := false, started := [] } tasks).should_stop := by
  simp [ParserManager.run_seq]

/- Helper lemmas: the Dadata credential rotation. -/

/-- The credential state of a connector over keys [k1, k2] that has seen
    m consecutive authorization failures on k1 and no rotation yet. -/
def c6_state (k1 k2 : String) (N m : Nat) : DadataKeyState :=
  { rotator := { keys := [k1, k2], current_index := 0 },
    failed_key_attempts := if m = 0 then [] else [(k1, m)],
    max_key_attempts := N, force_token := none,
    ignore_force_token_temporarily := false }

theorem c6_step (k1 k2 : String) (N m : Nat) (hm : m + 1 < N) :
    (c6_state k1 k2 N m).handle_failure .auth = c6_state k1 k2 N (m + 1) := by
  by_cases hm0 : m = 0
  · subst hm0
    simp [c6_state, DadataKeyState.handle_failure, KeyRotator.get_current_key,
      dictLookup, dictInsert, Nat.not_le.mpr hm]
  · simp [c6_state, DadataKeyState.handle_failure, KeyRotator.get_current_key,
      dictLookup, dictInsert, hm0, Nat.not_le.mpr hm]

theorem c6_iterate (k1 k2 : String) (N : Nat) :
    ∀ j m, m + j < N → (c6_state k1 k2 N m).auth_failures j = c6_state k1 k2 N (m + j) := by
  intro j
  induction j with
  | zero => intro m h; simp [DadataKeyState.auth_failures]
  | succ j ih =>
      intro m h
      rw [DadataKeyState.auth_failures, c6_step k1 k2 N m (by omega), ih (m + 1) (by omega)]
      congr 1
      omega

theorem auth_failures_snoc (st : DadataKeyState) (n : Nat) :
    st.auth_failures (n + 1) = (st.auth_failures n).handle_failure .auth := by
  induction n generalizing st with
  | zero => simp [DadataKeyState.auth_failures]
  | succ n ih =>
      rw [DadataKeyState.auth_failures, ih (st.handle_failure .auth),
        DadataKeyState.auth_failures]

theorem c6_trip (k1 k2 : String) (N m : Nat) (hm : N ≤ m + 1) :
    ((c6_state k1 k2 N m).handle_failure .auth).rotator
        = { keys := [k1, k2], current_index := 1 } ∧
    ((c6_state k1 k2 N m).handle_failure .auth).force_token = none := by
  by_cases hm0 : m = 0
  · subst hm0
    simp [c6_state, DadataKeyState.handle_failure, KeyRotator.get_current_key,
      dictLookup, dictInsert, hm, DadataKeyState.rotate_client, KeyRotator.rotate_key]
  · simp [c6_state, DadataKeyState.handle_failure, KeyRotator.get_current_key,
      dictLookup, dictInsert, hm0, hm, DadataKeyState.rotate_client, KeyRotator.rotate_key]

/- Helper lemmas: get_companies_to_process. -/

theorem gcList_processed_mono (rows : List InputRow) (cs : List CompanyData)
    (pr : List String) (a : String) (h : a ∈ pr) : a ∈ (gcList cs pr rows).2 := by
  induction rows generalizing cs pr with
  | nil => simpa [gcList] using h
  | cons r rest ih =>
      cases hik : r.inn.map String.pyStrip with
      | some s =>
          by_cases hmem : s ∈ pr
          · simpa [gcList, hik, hmem] using ih cs pr h
          · by_cases hch : r.chairman_name.isSome && r.chairman_inn.isSome
            · simpa [gcList, hik, hmem, hch] using
                ih cs (setInsert pr s) (mem_setInsert_of_mem pr s a h)
            · simpa [gcList, hik, hmem, hch] using
                ih (cs ++ [CompanyData.make r.name (some s)]) pr h
      | none =>
          by_cases hch : r.chairman_name.isSome && r.chairman_inn.isSome
          · simpa [gcList, hik, hch] using ih cs pr h
          · simpa [gcList, hik, hch] using
              ih (cs ++ [CompanyData.make r.name none]) pr h

/- --------------------------------------------------------------------
   Claim theorems
   -------------------------------------------------------------------- -/

/-- C10: for every value r passed as the rate_limit argument of
    FocusKonturParser or AuditItParser, the constructed parser's
    rate_limit equals the base default 1.0 (r is consumed as the
    site_name positional parameter), so the enforced inter-request delay
    is 1.0 seconds regardless of r. -/
theorem c10_rate_limit_swallowed (r : Rat) :
    (FocusKonturParser.construct r).rate_limit = 1 ∧
    (AuditItParser.construct r).rate_limit = 1 ∧
    interRequestDelay (FocusKonturParser.construct r) = 1 ∧
    interRequestDelay (AuditItParser.construct r) = 1 := by
  exact ⟨rfl, rfl, rfl, rfl⟩

/-- C3: every termination path of main.py (normal completion, a caught
    interrupt signal, an unhandled error) performs exactly one forced
    flush, and a second interrupt signal (whether delivered while the
    first flush is still running or after the first handler finished)
    does not re-enter the flush logic and terminates immediately, so two
    successive signals still produce exactly one cache write. -/
theorem c3_single_flush_on_termination :
    (main_normal_completion MainState.start).flushes = 1 ∧
    (main_unhandled_error MainState.start).flushes = 1 ∧
    (signal_handler MainState.start).flushes = 1 ∧
    (signal_handler MainState.start).terminated = true ∧
    (signal_handler (signal_handler_mid_flush MainState.start)).flushes = 1 ∧
    (signal_handler (signal_handler_mid_flush MainState.start)).terminated = true ∧
    signal_handler (signal_handler MainState.start) = signal_handler MainState.start := by
  refine ⟨rfl, rfl, rfl, rfl, rfl, rfl, rfl⟩

/-- C7: after a first trip of the Raiffeisen circuit breaker at t0, a
    second trip at t1 within the debounce window leaves the state (and
    so blocked_at and the cooldown window) unchanged, and is_blocked
    auto-clears, returning false and resetting the flag, once the
    cooldown has elapsed. -/
theorem c7_debounce_no_extension (st0 : RaiffeisenState) (t0 t1 t2 : Nat)
    (h0 : st0.blocked = false) (h1 : t0 ≤ t1)
    (h2 : t1 - t0 ≤ RAIFFEISEN_SECONDARY_WAIT_SECONDS)
    (h3 : t0 + RAIFFEISEN_BLOCK_TIME_SECONDS ≤ t2) :
    set_raiffeisen_blocked (set_raiffeisen_blocked st0 t0) t1
        = set_raiffeisen_blocked st0 t0 ∧
    (set_raiffeisen_blocked st0 t0).block_time = t0 ∧
    (is_raiffeisen_blocked (set_raiffeisen_blocked st0 t0) t2).1 = false ∧
    (is_raiffeisen_blocked (set_raiffeisen_blocked st0 t0) t2).2.blocked = false := by
  have hs : set_raiffeisen_blocked st0 t0 = { blocked := true, block_time := t0 } := by
    unfold set_raiffeisen_blocked
    rw [if_pos (Or.inl h0)]
  rw [hs]
  unfold set_raiffeisen_blocked is_raiffeisen_blocked
  unfold RAIFFEISEN_SECONDARY_WAIT_SECONDS RAIFFEISEN_BLOCK_TIME_SECONDS at *
  rw [if_neg (by simp; omega)]
  rw [if_neg (by simp)]
  rw [if_pos (by simp; omega)]
  exact ⟨rfl, rfl, rfl, rfl⟩

/-- C7 witness: the theorem applied at the concrete scenario of a first
    trip at 0, a second trip at the debounce boundary 600, and a query
    at the cooldown boundary 3600. -/
theorem c7_witness :
    (RaiffeisenState.mk false 0).blocked = false ∧
    (set_raiffeisen_blocked (set_raiffeisen_blocked ⟨false, 0⟩ 0) 600
        = set_raiffeisen_blocked ⟨false, 0⟩ 0 ∧
     (set_raiffeisen_blocked ⟨false, 0⟩ 0).block_time = 0 ∧
     (is_raiffeisen_blocked (set_raiffeisen_blocked ⟨false, 0⟩ 0) 3600).1 = false ∧
     (is_raiffeisen_blocked (set_raiffeisen_blocked ⟨false, 0⟩ 0) 3600).2.blocked = false) :=
  ⟨rfl, c7_debounce_no_extension ⟨false, 0⟩ 0 600 3600 rfl (by decide) (by decide) (by decide)⟩

/-- C1 counterexample: when id 0123456789 is present both in the
    pre-existing export file (c1_oldRow) and in the current run's
    results (c1_newRow), the _save_to_csv merge keeps the current run's
    row, not the pre-existing one, so the existing-file-wins policy does
    not hold. -/
theorem c1_counterexample :
    dictLookup (csvMerge [c1_newRow] [c1_oldRow]) "0123456789" = some c1_newRow ∧
    c1_newRow ≠ c1_oldRow ∧
    ¬ dictLookup (csvMerge [c1_newRow] [c1_oldRow]) "0123456789" = some c1_oldRow := by
  refine ⟨by decide, by decide, by decide⟩

theorem save_results_unforced (dm : DataManager)
    (h1 : dm.save_results_counter ≠ 0)
    (h2 : dm.save_interval ≤ dm.save_results_counter) :
    (dm.save_results false).runtime_results = dm.runtime_results ∧
    (dm.save_results false).save_results_counter = 0 ∧
    (dm.save_results false).cache_writes = dm.cache_writes + 1 ∧
    (dm.save_results false).csv_writes = dm.csv_writes := by
  unfold DataManager.save_results
  rw [if_neg (by simp [h1]), if_pos (by simp [h2])]
  obtain ⟨ha1, ha2, ha3, ha4, ha5, ha6, ha7⟩ := absorbList_proj dm.runtime_results dm
  obtain ⟨hb1, hb2, hb3, hb4, hb5, hb6, hb7⟩ :=
    absorbCacheList_proj dm.runtime_results (absorbList dm dm.runtime_results)
  simp [DataManager.save_cache, ha1, ha5, ha6, hb1, hb5, hb6]

/-- C5 counterexample: with save_interval 1, recording one result
    through update_results triggers a save from inside the record
    operation itself: the cache is written and the pending counter is
    reset, so record does decide to flush. -/
theorem c5_counterexample :
    ((DataManager.fresh 1).update_results c5_company).cache_writes = 1 ∧
    (DataManager.fresh 1).cache_writes = 0 ∧
    ((DataManager.fresh 1).update_results c5_company).save_results_counter = 0 := by
  refine ⟨by decide, by decide, by decide⟩

/-- C5 amended: update_results stores the result in the pending delta
    keyed by its id with last-write-wins, increments the pending counter
    by one, and itself triggers an unforced save (one cache write,
    counter reset) exactly when the incremented counter reaches
    save_interval; it never writes the export CSV. -/
theorem c5_amended_record (dm : DataManager) (c : CompanyData) (s : String)
    (hinn : c.inn = some s) (hs : s.pyStrip = s) (hne : s ≠ "") :
    ((dm.update_results c).runtime_results
        = dictInsert dm.runtime_results s { c with inn := some s }) ∧
    ((dm.update_results c).save_results_counter
        = if dm.save_interval ≤ dm.save_results_counter + 1 then 0
          else dm.save_results_counter + 1) ∧
    ((dm.update_results c).cache_writes
        = if dm.save_interval ≤ dm.save_results_counter + 1 then dm.cache_writes + 1
          else dm.cache_writes) ∧
    ((dm.update_results c).csv_writes = dm.csv_writes) := by
  unfold DataManager.update_results
  rw [hinn]
  simp only [Option.map_some', hs]
  rw [if_neg hne]
  by_cases hint : dm.save_interval ≤ dm.save_results_counter + 1
  · have hsave := save_results_unforced
      { dm with runtime_results := dictInsert dm.runtime_results s { c with inn := some s },
                save_results_counter := dm.save_results_counter + 1 }
      (by simp) (by simpa using hint)
    simp only [if_pos hint]
    refine ⟨hsave.1, hsave.2.1, hsave.2.2.1, hsave.2.2.2⟩
  · simp [hint]

/-- C5 witness: the amended record behaviour applied at a concrete
    manager with save_interval 2 and the c5 result. -/
theorem c5_witness :
    c5_company.inn = some "2222222222" ∧
    ("2222222222" : String).pyStrip = "2222222222" ∧
    ("2222222222" : String) ≠ "" ∧
    (((DataManager.fresh 2).update_results c5_company).runtime_results
        = dictInsert (DataManager.fresh 2).runtime_results "2222222222"
            { c5_company with inn := some "2222222222" } ∧
     (((DataManager.fresh 2).update_results c5_company).save_results_counter
        = if (DataManager.fresh 2).save_interval
              ≤ (DataManager.fresh 2).save_results_counter + 1 then 0
          else (DataManager.fresh 2).save_results_counter + 1) ∧
     (((DataManager.fresh 2).update_results c5_company).cache_writes
        = if (DataManager.fresh 2).save_interval
              ≤ (DataManager.fresh 2).save_results_counter + 1 then
            (DataManager.fresh 2).cache_writes + 1
          else (DataManager.fresh 2).cache_writes) ∧
     (((DataManager.fresh 2).update_results c5_company).csv_writes
        = (DataManager.fresh 2).csv_writes)) :=
  ⟨by decide, by decide, by decide,
   c5_amended_record (DataManager.fresh 2) c5_company "2222222222"
     (by decide) (by decide) (by decide)⟩

/-- C8: after every flush that performs a save (forced or threshold- or
    time-triggered), each entry of the pending runtime delta is present
    in the durable result map under its trimmed id, the id is a member
    of the processed set, and the pending delta itself is left unchanged
    (not cleared) by the flush. -/
theorem c8_flush_absorbs_pending (dm : DataManager) (force : Bool)
    (hnodup : (dm.runtime_results.map (fun p => p.1.pyStrip)).Nodup)
    (h1 : ¬(force = false ∧ dm.save_results_counter = 0 ∧ dm.runtime_results = []))
    (h2 : force = true ∨ dm.save_interval ≤ dm.save_results_counter ∨
          300 < dm.seconds_since_last_save) :
    (∀ p ∈ dm.runtime_results,
        dictLookup (dm.save_results force).results p.1.pyStrip = some p.2 ∧
        p.1.pyStrip ∈ (dm.save_results force).processed_inns) ∧
    (dm.save_results force).runtime_results = dm.runtime_results := by
  unfold DataManager.save_results
  rw [if_neg h1, if_pos h2]
  have hrt1 : (absorbList dm dm.runtime_results).runtime_results = dm.runtime_results :=
    (absorbList_proj dm.runtime_results dm).1
  have hrt2 : (absorbCacheList (absorbList dm dm.runtime_results)
      dm.runtime_results).runtime_results = dm.runtime_results := by
    rw [(absorbCacheList_proj dm.runtime_results (absorbList dm dm.runtime_results)).1, hrt1]
  constructor
  · intro p hp
    have hlook1 : dictLookup (absorbList dm dm.runtime_results).results p.1.pyStrip
        = some p.2 := absorbList_results_mem dm.runtime_results dm hnodup p hp
    have hmem1 : p.1.pyStrip ∈ (absorbList dm dm.runtime_results).processed_inns :=
      absorbList_processed_mem dm.runtime_results dm p hp
    have hstable : ∀ q ∈ dm.runtime_results, q.1.pyStrip = p.1.pyStrip → q.2 = p.2 := by
      intro q hq heq
      rw [List.inj_on_of_nodup_map hnodup hq hp heq]
    have hlook2 : dictLookup (absorbCacheList (absorbList dm dm.runtime_results)
        dm.runtime_results).results p.1.pyStrip = some p.2 :=
      absorbCacheList_results_stable dm.runtime_results _ _ _ hstable hlook1
    have hmem2 : p.1.pyStrip ∈ (absorbCacheList (absorbList dm dm.runtime_results)
        dm.runtime_results).processed_inns :=
      absorbCacheList_processed_mono dm.runtime_results _ _ hmem1
    by_cases hf : force
    · constructor
      · simpa [hf, DataManager.save_cache, hrt1, save_to_csv_results_eq] using hlook2
      · simpa [hf, DataManager.save_cache, hrt1, save_to_csv_processed_eq] using hmem2
    · constructor
      · simpa [hf, DataManager.save_cache, hrt1] using hlook2
      · simpa [hf, DataManager.save_cache, hrt1] using hmem2
  · by_cases hf : force
    · simpa [hf, DataManager.save_cache, hrt1, save_to_csv_runtime_eq] using hrt2
    · simpa [hf, DataManager.save_cache, hrt1] using hrt2

/-- C8 witness: the flush property applied at a manager holding one
    pending result, with a forced save. -/
theorem c8_witness :
    ((c8_dm.runtime_results.map (fun p => p.1.pyStrip)).Nodup ∧
     ¬(true = false ∧ c8_dm.save_results_counter = 0 ∧ c8_dm.runtime_results = []) ∧
     (true = true ∨ c8_dm.save_interval ≤ c8_dm.save_results_counter ∨
        300 < c8_dm.seconds_since_last_save)) ∧
    ((∀ p ∈ c8_dm.runtime_results,
        dictLookup (c8_dm.save_results true).results p.1.pyStrip = some p.2 ∧
        p.1.pyStrip ∈ (c8_dm.save_results true).processed_inns) ∧
     (c8_dm.save_results true).runtime_results = c8_dm.runtime_results) :=
  ⟨⟨by decide, by decide, by decide⟩,
   c8_flush_absorbs_pending c8_dm true (by decide) (by decide) (by decide)⟩

/-- C1 amended: the _save_to_csv merge is by entity id, but on an id
    present both in the current run's results and in the pre-existing
    export file, the current run's row is the one preserved; rows of
    the pre-existing file whose id is absent from the current results
    are preserved unchanged. -/
theorem c1_amended_current_run_wins (current existing : List CompanyData) (k : String) :
    (dictHasKey (addCurrentRows [] current) k = true →
        dictLookup (csvMerge current existing) k
          = dictLookup (addCurrentRows [] current) k) ∧
    ((∃ r ∈ current, innKey r = some k) →
        dictHasKey (addCurrentRows [] current) k = true) ∧
    (dictHasKey (addCurrentRows [] current) k = false →
        (∃ r ∈ existing, innKey r = some k) →
        ∃ v ∈ existing, innKey v = some k ∧
          dictLookup (csvMerge current existing) k = some v) := by
  refine ⟨?_, ?_, ?_⟩
  · intro h
    exact addExistingRows_lookup_of_hasKey existing _ k h
  · intro hex
    exact addCurrentRows_hasKey current [] k hex
  · intro h hex
    exact addExistingRows_lookup_absent existing _ k h hex

/-- C1 witness: the merge rule applied at the concrete conflict between
    c1_newRow (current run) and c1_oldRow (pre-existing file). -/
theorem c1_witness :
    dictHasKey (addCurrentRows [] [c1_newRow]) "0123456789" = true ∧
    dictLookup (csvMerge [c1_newRow] [c1_oldRow]) "0123456789"
        = dictLookup (addCurrentRows [] [c1_newRow]) "0123456789" :=
  ⟨by decide,
   (c1_amended_current_run_wins [c1_newRow] [c1_oldRow] "0123456789").1 (by decide)⟩

/-- C4 counterexample: two sources, the first hitting the API limit.
    The sequential dispatch loop never starts the second source's
    batch: should_stop is a manager-global flag, so the entities
    already partitioned to the other source are not processed and their
    results are absent from the store. -/
theorem c4_counterexample :
    (ParserManager.run_seq (DataManager.fresh 50) [c4_taskX, c4_taskY]).started
        = ["dadata.ru"] ∧
    (ParserManager.run_seq (DataManager.fresh 50) [c4_taskX, c4_taskY]).should_stop = true ∧
    dictLookup (ParserManager.run_seq (DataManager.fresh 50)
        [c4_taskX, c4_taskY]).dm.results "1111111111" = none ∧
    "1111111111" ∉ (ParserManager.run_seq (DataManager.fresh 50)
        [c4_taskX, c4_taskY]).dm.processed_inns := by
  refine ⟨by decide, by decide, by decide, by decide⟩

/-- C4 amended: an ApiLimitExceeded terminal failure from any source
    sets the manager-global should_stop flag; in the sequential dispatch
    loop every batch that comes before it (whatever its source)
    completes, and no batch after it is started for any source. -/
theorem c4_amended_global_stop (dm : DataManager) (ps : List ParserTask)
    (t : ParserTask) (qs : List ParserTask)
    (hps : ∀ p ∈ ps, ∃ rs, p.outcome = BatchOutcome.ok rs)
    (ht : t.outcome = BatchOutcome.apiLimit) :
    (ParserManager.run_seq dm (ps ++ t :: qs)).started
        = ps.map ParserTask.parser_name ++ [t.parser_name] ∧
    (ParserManager.run_seq dm (ps ++ t :: qs)).should_stop = true := by
  have h := run_tasks_halts_at_limit ps t qs
    { dm := dm, should_stop := false, started := [] } rfl hps ht
  have hp := run_seq_proj dm (ps ++ t :: qs)
  rw [hp.1, hp.2, h.1, h.2]
  simp

/-- C4 witness: the amended halting behaviour applied at the concrete
    run in which the successful source comes first and the exhausted
    source second; both batches run and the stop flag is set. -/
theorem c4_witness :
    (∀ p ∈ [c4_taskY], ∃ rs, p.outcome = BatchOutcome.ok rs) ∧
    c4_taskX.outcome = BatchOutcome.apiLimit ∧
    ((ParserManager.run_seq (DataManager.fresh 50) ([c4_taskY] ++ c4_taskX :: [])).started
        = [c4_taskY].map ParserTask.parser_name ++ [c4_taskX.parser_name] ∧
     (ParserManager.run_seq (DataManager.fresh 50)
        ([c4_taskY] ++ c4_taskX :: [])).should_stop = true) :=
  ⟨fun p hp => by
      rw [List.mem_singleton.mp hp]
      exact ⟨[c4_companyY], rfl⟩,
   rfl,
   c4_amended_global_stop (DataManager.fresh 50) [c4_taskY] c4_taskX []
     (fun p hp => by
        rw [List.mem_singleton.mp hp]
        exact ⟨[c4_companyY], rfl⟩)
     rfl⟩

/-- C6 counterexample: on a fresh two-key pool with the configured
    failure-streak threshold 3, a single quota failure (HTTP 429)
    already rotates away from the first key: rotation does happen on the
    first failure for quota errors. -/
theorem c6_counterexample :
    c6_pool.max_key_attempts = 3 ∧
    c6_pool.failed_key_attempts = [] ∧
    c6_pool.rotator.get_current_key = some "k1" ∧
    (c6_pool.handle_failure .quota).rotator.current_index = 1 ∧
    (c6_pool.handle_failure .quota).rotator.get_current_key = some "k2" := by
  refine ⟨by decide, by decide, by decide, by decide, by decide⟩

/-- C6 amended: an authorization failure (HTTP 403) rotates away from
    the current key only once its consecutive-failure count reaches the
    configured threshold N (fewer than N failures leave the current key
    in place, and afterwards the always-failing key k1 is replaced by k2
    for subsequent lookups), while a quota failure (HTTP 429) rotates
    immediately on the first failure. -/
theorem c6_amended_rotation (k1 k2 : String) (N j : Nat) (hN : 0 < N) (hj : j < N) :
    ((c6_state k1 k2 N 0).auth_failures j).rotator.get_current_key = some k1 ∧
    ((c6_state k1 k2 N 0).auth_failures j).client_key = some k1 ∧
    ((c6_state k1 k2 N 0).auth_failures N).rotator.get_current_key = some k2 ∧
    ((c6_state k1 k2 N 0).auth_failures N).client_key = some k2 ∧
    ((c6_state k1 k2 N 0).handle_failure .quota).rotator.get_current_key = some k2 := by
  have hiter := c6_iterate k1 k2 N j 0 (by omega)
  rw [Nat.zero_add] at hiter
  obtain ⟨n, rfl⟩ : ∃ n, N = n + 1 := ⟨N - 1, by omega⟩
  have hlast := c6_iterate k1 k2 (n + 1) n 0 (by omega)
  rw [Nat.zero_add] at hlast
  have hsnoc := auth_failures_snoc (c6_state k1 k2 (n + 1) 0) n
  have htrip := c6_trip k1 k2 (n + 1) n (by omega)
  refine ⟨?_, ?_, ?_, ?_, ?_⟩
  · rw [hiter]
    simp [c6_state, KeyRotator.get_current_key]
  · rw [hiter]
    simp [c6_state, DadataKeyState.client_key, KeyRotator.get_current_key]
  · rw [hsnoc, hlast, htrip.1]
    simp [KeyRotator.get_current_key]
  · rw [hsnoc, hlast]
    rw [DadataKeyState.client_key, htrip.2, htrip.1]
    simp [KeyRotator.get_current_key]
  · simp [c6_state, DadataKeyState.handle_failure, KeyRotator.get_current_key,
      DadataKeyState.rotate_client, KeyRotator.rotate_key]

/-- C6 witness: the rotation policy applied to keys [k1, k2] with
    threshold 3: after one authorization failure the current key is
    still k1, after three it is k2. -/
theorem c6_witness :
    (0 < 3 ∧ 1 < 3) ∧
    (((c6_state "k1" "k2" 3 0).auth_failures 1).rotator.get_current_key = some "k1" ∧
     ((c6_state "k1" "k2" 3 0).auth_failures 1).client_key = some "k1" ∧
     ((c6_state "k1" "k2" 3 0).auth_failures 3).rotator.get_current_key = some "k2" ∧
     ((c6_state "k1" "k2" 3 0).auth_failures 3).client_key = some "k2" ∧
     ((c6_state "k1" "k2" 3 0).handle_failure .quota).rotator.get_current_key = some "k2") :=
  ⟨⟨by decide, by decide⟩,
   c6_amended_rotation "k1" "k2" 3 1 (by decide) (by decide)⟩

/-- C9 counterexample: an input row that already carries a chairman
    name but no chairman id is not treated as pre-completed: it is kept
    in the list of companies to process, its id is not added to the
    completed set, and _load_csv_results ignores the same row. -/
theorem c9_counterexample :
    ((DataManager.fresh 50).get_companies_to_process [c9_row]).1
        = [CompanyData.make "Coop D" (some "0555555555")] ∧
    ((DataManager.fresh 50).get_companies_to_process [c9_row]).2.processed_inns = [] ∧
    loadCsvList [] [] [c9_row] = ([], []) := by
  refine ⟨by decide, by decide, by decide⟩

/- Helper lemmas: idempotence of the strip normalisation. -/

theorem dropLeadingWs_head (l : List Char) :
    ∀ c cs, dropLeadingWs l = c :: cs → c.isWhitespace = false := by
  induction l with
  | nil =>
      intro c cs h
      simp [dropLeadingWs] at h
  | cons a as ih =>
      intro c cs h
      by_cases hw : a.isWhitespace
      · exact ih c cs (by simpa [dropLeadingWs, hw] using h)
      · rw [dropLeadingWs, if_neg (by simpa using hw)] at h
        cases h
        simpa using hw

theorem dropLeadingWs_of_head (l : List Char)
    (h : ∀ c cs, l = c :: cs → c.isWhitespace = false) : dropLeadingWs l = l := by
  cases l with
  | nil => rfl
  | cons a as => simp [dropLeadingWs, h a as rfl]

theorem dropLeadingWs_last (l : List Char)
    (h : ∀ c cs, l.reverse = c :: cs → c.isWhitespace = false) :
    ∀ c cs, (dropLeadingWs l).reverse = c :: cs → c.isWhitespace = false := by
  induction l with
  | nil =>
      intro c cs hh
      simp [dropLeadingWs] at hh
  | cons a as ih =>
      intro c cs hh
      by_cases hw : a.isWhitespace
      · refine ih ?_ c cs (by simpa [dropLeadingWs, hw] using hh)
        intro c1 cs1 h1
        exact h c1 (cs1 ++ [a]) (by simp [h1])
      · exact h c cs (by simpa [dropLeadingWs, hw] using hh)

theorem pyStrip_idem (s : String) : s.pyStrip.pyStrip = s.pyStrip := by
  unfold String.pyStrip
  apply congrArg String.mk
  have hlastU : ∀ c cs,
      ((dropLeadingWs s.data.reverse).reverse : List Char).reverse = c :: cs →
        c.isWhitespace = false := by
    intro c cs h
    rw [List.reverse_reverse] at h
    exact dropLeadingWs_head s.data.reverse c cs h
  have hlastT := dropLeadingWs_last (dropLeadingWs s.data.reverse).reverse hlastU
  rw [dropLeadingWs_of_head _ hlastT, List.reverse_reverse]
  exact dropLeadingWs_of_head _
    (dropLeadingWs_head (dropLeadingWs s.data.reverse).reverse)

/-- C9 amended: a row is treated as pre-completed at load time only
    when both the chairman name and the chairman id are filled in: for
    such rows get_companies_to_process schedules nothing and records the
    trimmed id in the processed set, and _load_csv_results loads such a
    row of the export file into results and the processed set. -/
theorem c9_amended_requires_both (rows : List InputRow) (pr : List String)
    (hall : ∀ r ∈ rows, r.chairman_name.isSome ∧ r.chairman_inn.isSome) :
    (∀ cs, (gcList cs pr rows).1 = cs) ∧
    (∀ cs, ∀ r ∈ rows, ∀ s, r.inn = some s → s.pyStrip ∈ (gcList cs pr rows).2) ∧
    (∀ (res : List (String × CompanyData)) (pr2 : List String) (r : InputRow)
        (s : String) (rest : List InputRow),
        r.chairman_name.isSome → r.chairman_inn.isSome → r.inn = some s →
        dictHasKey res s.pyStrip = false →
        loadCsvList res pr2 (r :: rest)
          = loadCsvList
              (dictInsert res s.pyStrip
                { CompanyData.make r.name (some s) with
                    chairman_name := r.chairman_name,
                    chairman_inn := r.chairman_inn, source := r.source })
              (setInsert pr2 s.pyStrip) rest) := by
  refine ⟨?_, ?_, ?_⟩
  · induction rows generalizing pr with
    | nil =>
        intro cs
        simp [gcList]
    | cons r rest ih =>
        intro cs
        have hr := hall r (by simp)
        have hch : (r.chairman_name.isSome && r.chairman_inn.isSome) = true := by
          simp [hr.1, hr.2]
        have hrest : ∀ q ∈ rest, q.chairman_name.isSome ∧ q.chairman_inn.isSome :=
          fun q hq => hall q (List.mem_cons_of_mem r hq)
        cases hik : r.inn.map String.pyStrip with
        | some s =>
            by_cases hmem : s ∈ pr
            · simpa [gcList, hik, hmem] using ih pr hrest cs
            · simpa [gcList, hik, hmem, hch] using ih (setInsert pr s) hrest cs
        | none => simpa [gcList, hik, hch] using ih pr hrest cs
  · induction rows generalizing pr with
    | nil =>
        intro cs r hr
        simp at hr
    | cons r0 rest ih =>
        intro cs r hr s hs
        have hr0 := hall r0 (by simp)
        have hch : (r0.chairman_name.isSome && r0.chairman_inn.isSome) = true := by
          simp [hr0.1, hr0.2]
        have hrest : ∀ q ∈ rest, q.chairman_name.isSome ∧ q.chairman_inn.isSome :=
          fun q hq => hall q (List.mem_cons_of_mem r0 hq)
        rcases List.mem_cons.mp hr with hhead | htail
        · subst hhead
          have hik : r.inn.map String.pyStrip = some s.pyStrip := by
            rw [hs]
            rfl
          by_cases hmem : s.pyStrip ∈ pr
          · simpa [gcList, hik, hmem] using
              gcList_processed_mono rest cs pr s.pyStrip hmem
          · simpa [gcList, hik, hmem, hch] using
              gcList_processed_mono rest cs (setInsert pr s.pyStrip) s.pyStrip
                (mem_setInsert_self pr s.pyStrip)
        · cases hik : r0.inn.map String.pyStrip with
          | some s0 =>
              by_cases hmem : s0 ∈ pr
              · simpa [gcList, hik, hmem] using ih pr hrest cs r htail s hs
              · simpa [gcList, hik, hmem, hch] using
                  ih (setInsert pr s0) hrest cs r htail s hs
          | none => simpa [gcList, hik, hch] using ih pr hrest cs r htail s hs
  · intro res pr2 r s rest hcn hci hrinn hkey
    have hik : r.inn.map String.pyStrip = some s.pyStrip := by
      rw [hrinn]
      rfl
    have hch : (r.chairman_name.isSome && r.chairman_inn.isSome) = true := by
      simp [hcn, hci]
    simp [loadCsvList, hik, hkey, hch, CompanyData.make, pyStrip_idem]

/-- C9 witness: a row carrying both chairman cells is excluded from the
    work list, its id lands in the processed set, and the CSV loader
    absorbs the same row. -/
theorem c9_witness :
    (∀ r ∈ [c9_fullRow], r.chairman_name.isSome ∧ r.chairman_inn.isSome) ∧
    ((∀ cs, (gcList cs [] [c9_fullRow]).1 = cs) ∧
     (∀ cs, ∀ r ∈ [c9_fullRow], ∀ s, r.inn = some s →
        s.pyStrip ∈ (gcList cs [] [c9_fullRow]).2) ∧
     (∀ (res : List (String × CompanyData)) (pr2 : List String) (r : InputRow)
        (s : String) (rest : List InputRow),
        r.chairman_name.isSome → r.chairman_inn.isSome → r.inn = some s →
        dictHasKey res s.pyStrip = false →
        loadCsvList res pr2 (r :: rest)
          = loadCsvList
              (dictInsert res s.pyStrip
                { CompanyData.make r.name (some s) with
                    chairman_name := r.chairman_name,
                    chairman_inn := r.chairman_inn, source := r.source })
              (setInsert pr2 s.pyStrip) rest)) :=
  ⟨by decide, c9_amended_requires_both [c9_fullRow] [] (by decide)⟩

/-- C2: a retryable failure is persisted as a skip condition. A
    FocusKontur lookup whose single attempt (max_retries defaults to 1)
    ends in a timeout returns the company marked with the same
    not-found sentinel as a genuine not-found page; recording that
    result and saving adds the id to processed_inns, and a later run
    excludes the entity from the companies to process, so the timeout
    is never retried. -/
theorem c2_timeout_persisted_as_completed :
    FocusKonturParser.parse_company c2_company FOCUS_DEFAULT_MAX_RETRIES
        [FocusOutcome.timeoutSearch] = some (markNotFound c2_company) ∧
    FocusKonturParser.parse_company c2_company FOCUS_DEFAULT_MAX_RETRIES
        [FocusOutcome.notFoundPage] = some (markNotFound c2_company) ∧
    "0123456789" ∈
      (((DataManager.fresh 50).update_results (markNotFound c2_company)).save_results
          true).processed_inns ∧
    ((((DataManager.fresh 50).update_results (markNotFound c2_company)).save_results
          true).get_companies_to_process
        [{ name := "Coop B", inn := some "0123456789" }]).1 = [] := by
  refine ⟨by decide, by decide, by decide, by decide⟩
